import Mathlib

/-!
Verification development for the `TimeAxis` component
(`src/timeline/component/TimeAxis.js`): a horizontal time axis that maps a
visible time range to pixel coordinates, lays out major/minor gridlines and
labels per repaint, and recycles DOM elements across repaint cycles.

The JavaScript is embedded shallowly:
* JS numbers are modelled by `ℚ` (exact arithmetic), instants (\x7bDate
  values\x7d) by `ℤ` milliseconds; `new Date(x)` truncates its numeric
  argument toward zero (ECMAScript `TimeClip`/`ToInteger`), modelled by
  `jsTrunc`.
* DOM elements are identities `ℕ` per element kind; the four per-kind
  element lists of `this.dom` (`majorLines`, `majorTexts`, `minorLines`,
  `minorTexts`) and their `redundant` counterparts are lists of such ids.
* Thrown JS exceptions become `Except JsErr` / an error component.
-/

namespace TimeAxis

/-- JavaScript exception classes relevant here: `TypeError` and plain
`Error` (the component has no dedicated `ConfigurationError` class; it
throws `new Error('No range configured')`). -/
inductive JsErr where
  | typeError (msg : String)
  | error (msg : String)
deriving Repr, DecidableEq

/-- ECMAScript `TimeClip` applied by the `Date` constructor to a numeric
argument: truncation toward zero to whole milliseconds
(`new Date(0.5).valueOf() = 0`, `new Date(-0.5).valueOf() = 0`). -/
def jsTrunc (q : ℚ) : ℤ := if 0 ≤ q then ⌊q⌋ else ⌈q⌉

/-- JavaScript `a || d` for a possibly-absent numeric property `a`:
`undefined` and `0` are falsy, so both fall back to the default. Used for
`(this.props.minorCharWidth || 10)` and `(this.props.majorCharWidth || 10)`. -/
def jsOr (a : Option ℚ) (d : ℚ) : ℚ :=
  match a with
  | none => d
  | some v => if v = 0 then d else v

/-- The scale/offset pair stored in `this.conversion`
(`pixel = (time − offset) × scale`). -/
structure Conversion where
  scale : ℚ
  offset : ℚ
deriving Repr, DecidableEq

/-- `TimeAxis.prototype.toTime` (source lines 71–74):
`new Date(x / conversion.scale + conversion.offset)`. The `Date`
constructor truncates to whole milliseconds. -/
def toTime (c : Conversion) (x : ℚ) : ℤ :=
  jsTrunc (x / c.scale + c.offset)

/-- `TimeAxis.prototype.toScreen` (source lines 83–86):
`(time.valueOf() - conversion.offset) * conversion.scale`; a `Date`'s
`valueOf()` is its integer millisecond value. -/
def toScreen (c : Conversion) (t : ℤ) : ℚ :=
  ((t : ℚ) - c.offset) * c.scale

/-! ### `setRange` (source lines 58–64)

The guard is
`if (!(range instanceof Range) && (!range || !range.start || !range.end))`.
JS truthiness of the field values matters: `!range.start` is `true` not only
when `start` is absent (`undefined`) but also when it is `0`, `''`, `null`,
or `NaN`. -/

/-- The JS values a caller can place in the `start`/`end` properties of the
argument object, with their truthiness. `undef` doubles as "property
absent" (property access on a JS object yields `undefined`). -/
inductive JsVal where
  | num (q : ℚ)
  | str (s : String)
  | date (t : ℤ)
  | nullv
  | undef
deriving Repr, DecidableEq

/-- JS truthiness: `0`, `""`, `null`, `undefined` are falsy; `Date` objects
are always truthy. (`NaN`, also falsy, has no `ℚ` representative and is not
modelled.) -/
def truthy : JsVal → Bool
  | .num q => decide (q ≠ 0)
  | .str s => decide (s ≠ "")
  | .date _ => true
  | .nullv => false
  | .undef => false

/-- The argument passed to `setRange`: either an actual `Range` instance
(`isRangeInstance = true`) or a plain object whose `start`/`end` properties
hold the given values (`.undef` when the property is missing). The whole
argument may itself be `null`/`undefined`, modelled by wrapping in
`Option` at the call site. -/
structure RangeArg where
  isRangeInstance : Bool
  start : JsVal
  /-- the property named `end` in the source (a Lean keyword). -/
  endv : JsVal
deriving Repr, DecidableEq

/-- Message of the `TypeError` thrown by `setRange`. -/
def setRangeErrMsg : String :=
  "Range must be an instance of Range, or an object containing start and end."

/-- `TimeAxis.prototype.setRange` (source lines 58–64). On success the
argument is stored in `this.range` and returned; otherwise the `TypeError`
is thrown. `arg = none` models calling with `null`/`undefined` (the `!range`
disjunct). -/
def setRange (arg : Option RangeArg) : Except JsErr RangeArg :=
  match arg with
  | none => .error (.typeError setRangeErrMsg)
  | some r =>
      if !r.isRangeInstance && (!(truthy r.start) || !(truthy r.endv)) then
        .error (.typeError setRangeErrMsg)
      else
        .ok r

/-! ### The element pool

`this.dom` keeps, per element kind, an *active* list (elements placed this
cycle, in placement order — `push` appends) and a *redundant* list (elements
retired at the start of the cycle, reused front-first — `shift`). Each of
the four `_repaintMinorText` / `_repaintMajorText` / `_repaintMinorLine` /
`_repaintMajorLine` helpers performs the same pool step: `shift` a redundant
element if available, otherwise create a fresh element and append it to the
frame; then `push` it on the active list and set its text/position.

Element identities are `ℕ`, allocated per kind by a monotone counter
(`nextId`); `live` is the set of elements of the kind currently attached to
the frame (created and not yet removed). Since every physical DOM node
belongs to exactly one kind, tracking the kinds independently is faithful. -/

/-- One placed visual element: its identity, its CSS `left` value, and its
text content (empty for gridlines, which have none). -/
structure Elem where
  id : ℕ
  left : ℚ
  text : String
deriving Repr, DecidableEq

/-- Pool state of one element kind. -/
structure KindState where
  active : List Elem
  redundant : List ℕ
  nextId : ℕ
  live : Finset ℕ
deriving DecidableEq

/-- The common pool step of the four `_repaint*` element helpers
(e.g. source lines 262–288): reuse the front redundant element
(`.shift()`) or create a fresh one (appending it to the frame, hence to
`live`); push it on the active list with the given `left`/text. -/
def acquire (left : ℚ) (text : String) (k : KindState) : KindState :=
  match k.redundant with
  | id :: rest =>
      { k with redundant := rest, active := k.active ++ [⟨id, left, text⟩] }
  | [] =>
      { k with active := k.active ++ [⟨k.nextId, left, text⟩],
               live := insert k.nextId k.live,
               nextId := k.nextId + 1 }

/-- Start-of-cycle move in `_repaintLabels` (source lines 192–200):
`dom.redundant.X = dom.X; dom.X = []` for each kind. Note the previous
redundant list is *overwritten*, not merged. -/
def beginKind (k : KindState) : KindState :=
  { k with active := [], redundant := k.active.map Elem.id }

/-- End-of-cycle cleanup in `_repaintLabels` (source lines 244–252): every
element still in the redundant list is removed from the frame
(`parentNode.removeChild`), and the list is emptied. -/
def endKind (k : KindState) : KindState :=
  { k with redundant := [],
           live := k.live \ k.redundant.toFinset }

/-- Run a sequence of pool acquisitions (the per-kind trace of one repaint
cycle's placement calls), each given as a `(left, text)` pair. -/
def foldAcquire (args : List (ℚ × String)) (k : KindState) : KindState :=
  args.foldl (fun s a => acquire a.1 a.2 s) k

/-- One complete pool cycle of a kind: retire all active elements, run the
cycle's acquisitions, destroy what was not reused. -/
def cycleKind (args : List (ℚ × String)) (k : KindState) : KindState :=
  endKind (foldAcquire args (beginKind k))

/-! ### `_repaintLabels` (source lines 176–253)

The external `TimeStep` generator (a collaborator, not part of this file's
source) is abstracted by its observable output during the loop: the ordered
list of ticks it yields (`getCurrent()` / `isMajor()` / `getLabelMinor()` /
`getLabelMajor()` per iteration) and its `getLabelMajor(date)` rule used for
the leading-edge label. -/

/-- One tick yielded by the step generator during the loop. -/
structure Tick where
  instant : ℤ
  isMajor : Bool
  labelMinor : String
  labelMajor : String
deriving Repr, DecidableEq

/-- The resolved option flags (after `getOption`'s default resolution:
orientation `bottom`, both label kinds shown by default). Orientation only
affects which of `style.top` / `style.bottom` carries the vertical offset,
which no claim quantifies over; the flags drive the layout. -/
structure Config where
  showMinorLabels : Bool
  showMajorLabels : Bool
deriving Repr, DecidableEq

/-- The cached glyph measurements of `this.props` used by `_repaintLabels`:
`none` models the property being absent before `_calculateCharSize` ran. -/
structure CharProps where
  minorCharWidth : Option ℚ
  majorCharWidth : Option ℚ
deriving Repr, DecidableEq

/-- `this.dom`'s element bookkeeping, one pool per kind. -/
structure DomState where
  majorLines : KindState
  majorTexts : KindState
  minorLines : KindState
  minorTexts : KindState
deriving DecidableEq

/-- `dom` with all four active and redundant lists empty (the constructor's
initial value, source lines 16–27). -/
def emptyDom : DomState :=
  ⟨⟨[], [], 0, ∅⟩, ⟨[], [], 0, ∅⟩, ⟨[], [], 0, ∅⟩, ⟨[], [], 0, ∅⟩⟩

/-- Start-of-cycle retirement for all four kinds (source lines 192–200). -/
def beginCycleDom (d : DomState) : DomState :=
  ⟨beginKind d.majorLines, beginKind d.majorTexts,
   beginKind d.minorLines, beginKind d.minorTexts⟩

/-- End-of-cycle cleanup for all four kinds (source lines 244–252). -/
def endCycleDom (d : DomState) : DomState :=
  ⟨endKind d.majorLines, endKind d.majorTexts,
   endKind d.minorLines, endKind d.minorTexts⟩

/-- Width of minor and major gridlines (`props.minorLineWidth` /
`props.majorLineWidth`, hard-coded to `1` at source lines 135 and 137);
gridlines are placed at `x - width / 2` to centre on their pixel column. -/
def lineWidth : ℚ := 1

/-- Loop state of `_repaintLabels`: the element pools plus the
`xFirstMajorLabel` variable (`none` = `undefined`). -/
structure LoopAcc where
  dom : DomState
  xFirstMajorLabel : Option ℚ
deriving DecidableEq

/-- `if (xFirstMajorLabel == undefined) { xFirstMajorLabel = x; }`: assign
only when still undefined (first write wins). -/
def jsFirstDefined (a b : Option ℚ) : Option ℚ :=
  match a with
  | none => b
  | some v => some v

/-- One iteration of the `while` loop of `_repaintLabels` (source lines
205–231), for the tick `t`:

* `x = this.toScreen(cur)`;
* if `showMinorLabels`, place a minor label (`_repaintMinorText`);
* if `isMajor && showMajorLabels`: if `x > 0`, record `xFirstMajorLabel`
  (first write wins) and place a major label; then place a major gridline;
* otherwise place a minor gridline. -/
def processTick (cfg : Config) (c : Conversion) (acc : LoopAcc) (t : Tick) :
    LoopAcc :=
  let x := toScreen c t.instant
  let dom1 :=
    if cfg.showMinorLabels then
      { acc.dom with minorTexts := acquire x t.labelMinor acc.dom.minorTexts }
    else acc.dom
  if t.isMajor && cfg.showMajorLabels then
    let (dom2, xf) :=
      if 0 < x then
        ({ dom1 with majorTexts := acquire x t.labelMajor dom1.majorTexts },
         jsFirstDefined acc.xFirstMajorLabel (some x))
      else (dom1, acc.xFirstMajorLabel)
    ⟨{ dom2 with majorLines := acquire (x - lineWidth / 2) "" dom2.majorLines },
     xf⟩
  else
    ⟨{ dom1 with minorLines := acquire (x - lineWidth / 2) "" dom1.minorLines },
     acc.xFirstMajorLabel⟩

/-- `TimeAxis.prototype._repaintLabels` (source lines 176–253), after the
conversion has been computed by `_updateConversion` (passed here as `c`) and
the step generator constructed (its yielded ticks are `ticks`; its
`getLabelMajor(date)` rule is `labelMajorAt`):

1. retire all active elements (lines 192–200);
2. run the tick loop, visiting at most 1000 ticks
   (`while (step.hasNext() && max < 1000)`, lines 202–231);
3. leading-edge rule (lines 234–242): if `showMajorLabels`, estimate the
   width of the label describing pixel 0 as
   `leftText.length * (majorCharWidth || 10) + 10` and place it at pixel 0
   when no major label was placed in the loop or the estimate is smaller
   than `xFirstMajorLabel`;
4. destroy every retired element not reacquired (lines 244–252).

Returns the final pools and the loop's `xFirstMajorLabel`. -/
def repaintLabels (cfg : Config) (props : CharProps) (c : Conversion)
    (ticks : List Tick) (labelMajorAt : ℤ → String) (dom0 : DomState) :
    DomState × Option ℚ :=
  let acc0 : LoopAcc := ⟨beginCycleDom dom0, none⟩
  let acc := (ticks.take 1000).foldl (processTick cfg c) acc0
  let acc1 :=
    if cfg.showMajorLabels then
      let leftTime := toTime c 0
      let leftText := labelMajorAt leftTime
      let widthText : ℚ :=
        (leftText.length : ℚ) * jsOr props.majorCharWidth 10 + 10
      match acc.xFirstMajorLabel with
      | none =>
          { acc with
              dom := { acc.dom with
                majorTexts := acquire 0 leftText acc.dom.majorTexts } }
      | some xf =>
          if widthText < xf then
            { acc with
                dom := { acc.dom with
                  majorTexts := acquire 0 leftText acc.dom.majorTexts } }
          else acc
    else acc
  (endCycleDom acc1.dom, acc1.xFirstMajorLabel)

/-! ### `_repaintLine` (source lines 392–427)

The separating horizontal axis line `this.dom.line`. When at least one
label kind is shown, the line is created on first need or re-appended to
the end of the frame's children; either way its vertical offset is set to
`this.height`. When both kinds are hidden, the source executes

  `if (line && line.parentElement) { frame.removeChild(line.line); ... }`

`line` is a DIV element; it has no property named `line`, so `line.line`
evaluates to `undefined`, and `Node.removeChild(undefined)` throws a
`TypeError` — the `delete this.dom.line` after it is never reached. -/

/-- The axis line element: its stored vertical offset (`style.top` or
`style.bottom`, depending on orientation, set to `this.height + 'px'`). -/
structure LineElem where
  offset : ℚ
deriving Repr, DecidableEq

/-- Message of the `TypeError` raised by `Node.removeChild` when its
argument is not a `Node` (here: `undefined`, from the `line.line` property
access at source line 423). -/
def removeChildTypeErrMsg : String :=
  "Failed to execute removeChild on Node: parameter 1 is not of type Node."

/-- `TimeAxis.prototype._repaintLine` (source lines 392–427). `height` is
`this.height`; `line` is `this.dom.line` (`none` when absent). An existing
line is always attached to the frame (it is created appended and the only
removal path throws first), so `line.parentElement` is truthy whenever
`line` is. -/
def repaintLine (cfg : Config) (height : ℚ) (line : Option LineElem) :
    Except JsErr (Option LineElem) :=
  if cfg.showMinorLabels || cfg.showMajorLabels then
    -- re-append an existing line at the end of the children, or create it;
    -- then anchor it at `this.height` from the orientation edge
    .ok (some ⟨height⟩)
  else
    match line with
    | some _ =>
        -- frame.removeChild(line.line): `line.line` is undefined
        .error (.typeError removeChildTypeErrMsg)
    | none => .ok none

/-! ### The full `repaint` (source lines 92–170) and the component state

The embedding below follows the statement order of `repaint` so that the
state returned alongside a thrown error is exactly the state the JS object
is left in when the exception propagates (JS has no rollback). -/

/-- The stored range as consumed by a repaint (`this.range` after a
successful `setRange` with numeric/Date contents): `util.convert(_,
'Number')` of its `start`/`end`, plus the optional custom conversion
strategy a `Range` instance may carry (`range.conversion`, a function of
the pixel width). -/
structure RangeData where
  start : ℤ
  /-- the property named `end` in the source (a Lean keyword). -/
  endv : ℤ
  conversionFn : Option (ℚ → Conversion)

/-- Modelled from the spec: `Range.conversion(start, end, width)` is defined
in the external `Range.js`, which is not part of this repository's source
tree; spec §4.1: "otherwise compute `scale = width / (end − start)`,
`offset = start`". -/
def rangeConversion (start endv : ℤ) (width : ℚ) : Conversion :=
  ⟨width / ((endv : ℚ) - (start : ℚ)), (start : ℚ)⟩

/-- The conversion `_updateConversion` (source lines 470–482) stores for a
present range: the range's own strategy when it has one, otherwise
`Range.conversion`. -/
def rangeToConversion (r : RangeData) (width : ℚ) : Conversion :=
  match r.conversionFn with
  | some f => f width
  | none => rangeConversion r.start r.endv width

/-- Message of the error thrown by `_updateConversion` (source line 473)
when no range has been set. The spec's taxonomy calls this the
`ConfigurationError`; the code throws a plain `Error`. -/
def noRangeErrMsg : String := "No range configured"

/-- `TimeAxis.prototype._updateConversion` (source lines 470–482) as a
fallible computation of the new `this.conversion`. -/
def updateConversion (width : ℚ) (range : Option RangeData) :
    Except JsErr Conversion :=
  match range with
  | none => .error (.error noRangeErrMsg)
  | some r => .ok (rangeToConversion r width)

/-- `this.props`: cached glyph measurements (`none` before
`_calculateCharSize` filled them) and the per-repaint layout heights
(`none` before the first repaint computed them). -/
structure AxisProps where
  minorCharHeight : Option ℚ
  minorCharWidth : Option ℚ
  majorCharHeight : Option ℚ
  majorCharWidth : Option ℚ
  minorLabelHeight : Option ℚ
  majorLabelHeight : Option ℚ
  minorLineHeight : Option ℚ
  minorLineWidth : Option ℚ
  majorLineHeight : Option ℚ
  majorLineWidth : Option ℚ

/-- `this.props` at construction (source lines 28–35): no glyph
measurement, no layout height computed yet. -/
def initProps : AxisProps :=
  ⟨none, none, none, none, none, none, none, none, none, none⟩

/-- The mutable component state of a `TimeAxis` instance touched by the
operations under verification. `frameExists` is `this.frame` being set;
`frameInParent` is `frame.parentNode` being non-null; `frameStyled` records
the height written into the frame's style block (lines 143–156), `none`
before any repaint reached that point. -/
structure AxisState where
  frameExists : Bool
  frameInParent : Bool
  width : ℚ
  height : ℚ
  props : AxisProps
  dom : DomState
  line : Option LineElem
  conversion : Option Conversion
  range : Option RangeData
  frameStyled : Option ℚ

/-- The state the `TimeAxis` constructor leaves behind (source lines
11–47): no frame, empty element pools, `this.conversion = null`,
`this.range = null`. `width`/`height` are numeric fields not yet assigned;
they are modelled as `0` and are never read before being assigned. -/
def initAxisState : AxisState :=
  { frameExists := false, frameInParent := false, width := 0, height := 0,
    props := initProps, dom := emptyDom, line := none,
    conversion := none, range := none, frameStyled := none }

/-- `TimeAxis.prototype.toTime` called on the raw component state: when
`this.conversion` is still `null` (no repaint ran yet), the property read
`conversion.scale` throws a `TypeError` — not the `Error('No range
configured')` the conversion-less repaint path would raise. -/
def toTimeOn (s : AxisState) (x : ℚ) : Except JsErr ℤ :=
  match s.conversion with
  | none => .error (.typeError "Cannot read properties of null (reading scale)")
  | some c => .ok (toTime c x)

/-- `TimeAxis.prototype.toScreen` called on the raw component state; same
null-dereference behaviour as `toTimeOn`. -/
def toScreenOn (s : AxisState) (t : ℤ) : Except JsErr ℚ :=
  match s.conversion with
  | none => .error (.typeError "Cannot read properties of null (reading offset)")
  | some c => .ok (toScreen c t)

/-- What the host surface supplies during a repaint: parent/container
availability, the measured frame width (`frame.offsetWidth`), the panel
height (`this.parent.height`), the glyph probe measurements
(`_calculateCharSize`, source lines 434–461), and the external `TimeStep`
generator as a function of `(start, end, minimumStep)`. -/
structure Host where
  parentExists : Bool
  parentContainerExists : Bool
  parentHeight : ℚ
  offsetWidth : ℚ
  minorCharHeight : ℚ
  minorCharWidth : ℚ
  majorCharHeight : ℚ
  majorCharWidth : ℚ
  stepTicks : ℤ → ℤ → ℤ → List Tick
  stepLabelMajorAt : ℤ → ℤ → ℤ → ℤ → String

/-- `TimeAxis.prototype._calculateCharSize` (source lines 434–461): measure
the minor and major glyph boxes once each and cache them in `this.props`
(each block guarded by `'minorCharHeight' in this.props` /
`'majorCharHeight' in this.props`). -/
def calculateCharSize (env : Host) (p : AxisProps) : AxisProps :=
  let p1 :=
    if p.minorCharHeight.isSome then p
    else { p with minorCharHeight := some env.minorCharHeight,
                  minorCharWidth := some env.minorCharWidth }
  if p1.majorCharHeight.isSome then p1
  else { p1 with majorCharHeight := some env.majorCharHeight,
                 majorCharWidth := some env.majorCharWidth }

/-- `TimeAxis.prototype.repaint` (source lines 92–170), statement by
statement. Returns the error raised (if any) together with the state the
component is left in — on an error path, the mutations performed before the
throw persist. The `options`/`getOption` resolution is abstracted by the
resolved flags `cfg`; `this.step = step` (used only by `snap`) is not
tracked. -/
def repaint (env : Host) (cfg : Config) (s0 : AxisState) :
    Option JsErr × AxisState :=
  -- lines 97–101: create the frame if absent (a fresh DIV is detached)
  let s1 := if s0.frameExists then s0
            else { s0 with frameExists := true, frameInParent := false }
  -- line 106: this.width = frame.offsetWidth
  let s2 := { s1 with width := env.offsetWidth }
  -- lines 108–117: when the frame is detached, attach it or throw
  if !s2.frameInParent && !env.parentExists then
    (some (.error "Cannot repaint time axis: no parent attached"), s2)
  else if !s2.frameInParent && !env.parentContainerExists then
    (some (.error "Cannot repaint time axis: parent has no container element"),
     s2)
  else
    -- the frame either already had a parent node or was just appended, so
    -- `frame.parentNode` is non-null from here on (lines 119–120); setting
    -- the flag is the identity when it already held
    let s3 := { s2 with frameInParent := true }
    -- lines 121–122: _calculateCharSize
    let props1 := calculateCharSize env s3.props
    -- lines 129–137: label and line heights
    let minorLabelHeight := if cfg.showMinorLabels then props1.minorCharHeight.getD 0 else 0
    let majorLabelHeight := if cfg.showMajorLabels then props1.majorCharHeight.getD 0 else 0
    let height := minorLabelHeight + majorLabelHeight
    let props2 := { props1 with
      minorLabelHeight := some minorLabelHeight,
      majorLabelHeight := some majorLabelHeight,
      minorLineHeight := some (env.parentHeight + minorLabelHeight),
      minorLineWidth := some lineWidth,
      majorLineHeight := some (env.parentHeight + height),
      majorLineWidth := some lineWidth }
    -- lines 140–141: take the frame offline while updating
    let s4 := { s3 with props := props2, height := height, frameInParent := false }
    -- lines 143–156: frame style block
    let s5 := { s4 with frameStyled := some height }
    -- line 158: _repaintLabels, which first runs _updateConversion (line 180)
    match s5.range with
    | none =>
        -- _updateConversion throws; the frame stays offline
        (some (.error noRangeErrMsg), s5)
    | some r =>
      let conv := rangeToConversion r s5.width
      let s6 := { s5 with conversion := some conv }
      -- lines 181–185: numeric start/end, minimum step, step generator
      let minimumStep :=
        toTime conv (jsOr s6.props.minorCharWidth 10 * 5) - toTime conv 0
      let ticks := env.stepTicks r.start r.endv minimumStep
      let labelMajorAt := env.stepLabelMajorAt r.start r.endv minimumStep
      let dom1 :=
        (repaintLabels cfg ⟨s6.props.minorCharWidth, s6.props.majorCharWidth⟩
          conv ticks labelMajorAt s6.dom).1
      let s7 := { s6 with dom := dom1 }
      -- line 160: _repaintLine
      match repaintLine cfg s7.height s7.line with
      | .error e => (some e, s7)
      | .ok line1 =>
        let s8 := { s7 with line := line1 }
        -- lines 163–168: put the frame online again
        (none, { s8 with frameInParent := true })

/-! ### Placement sequences described by the specification

The following definitions restate, in the spec's own terms, which elements
one repaint cycle places for a tick sequence, in placement order. They are
deliberately written from the spec sentences (as amended where the code
differs), to be *compared* with the source-derived `repaintLabels` above. -/

/-- The tick's pixel position, `x = this.toScreen(cur)`. -/
def tickX (c : Conversion) (t : Tick) : ℚ := toScreen c t.instant

/-- Minor labels placed during the loop: one per processed tick when
`showMinorLabels`, at the tick's pixel position, with the minor text. -/
def minorTextArgs (cfg : Config) (c : Conversion) (ts : List Tick) :
    List (ℚ × String) :=
  ts.filterMap fun t =>
    if cfg.showMinorLabels then some (tickX c t, t.labelMinor) else none

/-- Major labels placed during the loop: for each major tick, exactly when
`showMajorLabels` and the pixel position is `> 0`, with the major text. -/
def majorTextArgs (cfg : Config) (c : Conversion) (ts : List Tick) :
    List (ℚ × String) :=
  ts.filterMap fun t =>
    if t.isMajor && cfg.showMajorLabels && decide (0 < tickX c t) then
      some (tickX c t, t.labelMajor)
    else none

/-- Major gridlines placed during the loop: one per major tick *when
`showMajorLabels` is set* (amending the claim: with `showMajorLabels`
false a major tick falls into the minor-gridline branch), centred on the
pixel column (`left = x − lineWidth / 2`). -/
def majorLineArgs (cfg : Config) (c : Conversion) (ts : List Tick) :
    List (ℚ × String) :=
  ts.filterMap fun t =>
    if t.isMajor && cfg.showMajorLabels then
      some (tickX c t - lineWidth / 2, "")
    else none

/-- Minor gridlines placed during the loop: one per tick that is not a
major tick with `showMajorLabels` set. -/
def minorLineArgs (cfg : Config) (c : Conversion) (ts : List Tick) :
    List (ℚ × String) :=
  ts.filterMap fun t =>
    if !(t.isMajor && cfg.showMajorLabels) then
      some (tickX c t - lineWidth / 2, "")
    else none

/-- `xFirstMajorLabel` at the end of the loop: the pixel position of the
first loop-placed major label (first write wins), `none` when no major
label was placed in the loop. -/
def xFirstOf (cfg : Config) (c : Conversion) (ts : List Tick) : Option ℚ :=
  (majorTextArgs cfg c ts).head?.map Prod.fst

/-- The leading-edge label (source lines 234–242): when `showMajorLabels`,
the major-label text for `toTime(0)` is placed at pixel 0 exactly when no
major label was placed in the loop or its estimated width
`length × (majorCharWidth || 10) + 10` is strictly below
`xFirstMajorLabel`. -/
def edgeArgs (cfg : Config) (props : CharProps) (c : Conversion)
    (ts : List Tick) (labelMajorAt : ℤ → String) : List (ℚ × String) :=
  if cfg.showMajorLabels then
    let leftText := labelMajorAt (toTime c 0)
    let widthText : ℚ :=
      (leftText.length : ℚ) * jsOr props.majorCharWidth 10 + 10
    match xFirstOf cfg c ts with
    | none => [(0, leftText)]
    | some xf => if widthText < xf then [(0, leftText)] else []
  else []

/-! ### Auxiliary notions used by the statements and proofs -/

/-- The elements built from an id supply paired with an argument list. -/
def zipElems (ids : List ℕ) (args : List (ℚ × String)) : List Elem :=
  List.zipWith (fun i a => ⟨i, a.1, a.2⟩) ids args

/-- The ids a run of `n` acquisitions consumes: the redundant list front
first, then freshly allocated ids. -/
def poolIds (red : List ℕ) (next n : ℕ) : List ℕ :=
  (red ++ List.range' next (n - red.length)).take n

/-- Well-formedness of one kind's pool between repaints: no retired
elements pending, distinct element identities all below the allocator
counter, and the live set is exactly the active elements. -/
def WFKind (k : KindState) : Prop :=
  k.redundant = [] ∧ (k.active.map Elem.id).Nodup ∧
  (∀ e ∈ k.active, e.id < k.nextId) ∧
  k.live = (k.active.map Elem.id).toFinset

/-- Well-formedness of all four pools. -/
def WFDom (d : DomState) : Prop :=
  WFKind d.majorLines ∧ WFKind d.majorTexts ∧
  WFKind d.minorLines ∧ WFKind d.minorTexts

/-- The ticks actually processed by the loop: the generator's sequence
truncated to the 1000-tick cap. -/
def cappedTicks (ticks : List Tick) : List Tick := ticks.take 1000

/-- Number of minor labels emitted during one cycle. -/
def emittedMinorTexts (cfg : Config) (ticks : List Tick) : ℕ :=
  if cfg.showMinorLabels then (cappedTicks ticks).length else 0

/-- Number of major gridlines emitted during one cycle. -/
def emittedMajorLines (cfg : Config) (ticks : List Tick) : ℕ :=
  ((cappedTicks ticks).filter fun t => t.isMajor && cfg.showMajorLabels).length

/-- Number of minor gridlines emitted during one cycle. -/
def emittedMinorLines (cfg : Config) (ticks : List Tick) : ℕ :=
  ((cappedTicks ticks).filter fun t =>
    !(t.isMajor && cfg.showMajorLabels)).length

/-- Number of major labels emitted during one cycle: the loop's in-range
major labels plus the optional leading-edge label. -/
def emittedMajorTexts (cfg : Config) (props : CharProps) (c : Conversion)
    (ticks : List Tick) (lblAt : ℤ → String) : ℕ :=
  ((cappedTicks ticks).filter fun t =>
      t.isMajor && cfg.showMajorLabels && decide (0 < tickX c t)).length
    + (edgeArgs cfg props c (cappedTicks ticks) lblAt).length

/-! ### Concrete sample values for closed instances -/

/-- A sample host: a 480-px frame over a one-day range, 10×16 glyph boxes,
a 100-px panel, and a step generator yielding a single major tick at the
range start. -/
def sampleHost : Host :=
  { parentExists := true, parentContainerExists := true, parentHeight := 100,
    offsetWidth := 480, minorCharHeight := 16, minorCharWidth := 10,
    majorCharHeight := 16, majorCharWidth := 10,
    stepTicks := fun s _ _ => [⟨s, true, "00:00", "Jan 1"⟩],
    stepLabelMajorAt := fun _ _ _ _ => "Jan 1" }

/-- A one-day range starting at epoch 0, with no custom conversion. -/
def sampleRange : RangeData := ⟨0, 86400000, none⟩

/-- Both label kinds shown (the source's defaults). -/
def sampleCfg : Config := ⟨true, true⟩

/-- A minor tick at instant 0. -/
def minorTick0 : Tick := ⟨0, false, "00:00", "Jan 1"⟩

/-! ### Pool lemmas -/

@[simp] theorem foldAcquire_nil (k : KindState) : foldAcquire [] k = k := rfl

@[simp] theorem foldAcquire_cons (a : ℚ × String) (l : List (ℚ × String))
    (k : KindState) : foldAcquire (a :: l) k = foldAcquire l (acquire a.1 a.2 k) :=
  rfl

theorem foldAcquire_append (l₁ l₂ : List (ℚ × String)) (k : KindState) :
    foldAcquire (l₁ ++ l₂) k = foldAcquire l₂ (foldAcquire l₁ k) :=
  List.foldl_append _ _ _ _

@[simp] theorem zipElems_nil_left (args : List (ℚ × String)) :
    zipElems [] args = [] := rfl

@[simp] theorem zipElems_nil_right (ids : List ℕ) : zipElems ids [] = [] := by
  cases ids <;> rfl

@[simp] theorem zipElems_cons (i : ℕ) (ids : List ℕ) (a : ℚ × String)
    (args : List (ℚ × String)) :
    zipElems (i :: ids) (a :: args) = ⟨i, a.1, a.2⟩ :: zipElems ids args := rfl

theorem poolIds_zero (red : List ℕ) (next : ℕ) : poolIds red next 0 = [] := by
  simp [poolIds]

theorem poolIds_cons (i : ℕ) (rest : List ℕ) (next n : ℕ) :
    poolIds (i :: rest) next (n + 1) = i :: poolIds rest next n := by
  simp only [poolIds, List.length_cons, Nat.succ_sub_succ, List.cons_append,
    List.take_succ_cons]

theorem poolIds_fresh (next n : ℕ) :
    poolIds [] next (n + 1) = next :: poolIds [] (next + 1) n := by
  simp only [poolIds, List.length_nil, Nat.sub_zero, List.nil_append]
  rw [List.take_of_length_le (by simp), List.take_of_length_le (by simp),
    List.range'_succ]

/-- Complete characterization of a run of acquisitions: the active list
grows by one element per argument, ids drawn from the redundant front then
fresh; exactly the unconsumed redundant tail remains; `live` grows by the
freshly created ids. -/
theorem foldAcquire_spec (args : List (ℚ × String)) (k : KindState) :
    foldAcquire args k =
      ⟨k.active ++ zipElems (poolIds k.redundant k.nextId args.length) args,
       k.redundant.drop args.length,
       k.nextId + (args.length - k.redundant.length),
       k.live ∪ (List.range' k.nextId (args.length - k.redundant.length)).toFinset⟩ := by
  induction args generalizing k with
  | nil =>
      cases k with
      | mk active red next live => simp [poolIds_zero]
  | cons a args ih =>
      cases k with
      | mk active red next live =>
        cases red with
        | cons i rest =>
            rw [foldAcquire_cons]
            show foldAcquire args ⟨active ++ [⟨i, a.1, a.2⟩], rest, next, live⟩ = _
            rw [ih]
            simp only [List.length_cons, Nat.succ_sub_succ, poolIds_cons,
              zipElems_cons, List.drop_succ_cons, KindState.mk.injEq,
              List.append_assoc, List.singleton_append]
        | nil =>
            rw [foldAcquire_cons]
            show foldAcquire args
              ⟨active ++ [⟨next, a.1, a.2⟩], [], next + 1, insert next live⟩ = _
            rw [ih]
            simp only [List.length_nil, Nat.sub_zero, List.length_cons,
              poolIds_fresh, zipElems_cons, List.drop_nil, KindState.mk.injEq,
              List.append_assoc, List.singleton_append, List.range'_succ,
              List.toFinset_cons, Finset.union_insert, Finset.insert_union]
            exact ⟨trivial, trivial, by omega, trivial⟩

theorem poolIds_length (red : List ℕ) (next n : ℕ) :
    (poolIds red next n).length = n := by
  simp only [poolIds, List.length_take, List.length_append, List.length_range']
  omega

theorem zipElems_length (ids : List ℕ) (args : List (ℚ × String)) :
    (zipElems ids args).length = min ids.length args.length := by
  simp [zipElems]

theorem zipElems_map_id (ids : List ℕ) (args : List (ℚ × String))
    (h : ids.length = args.length) : (zipElems ids args).map Elem.id = ids := by
  induction ids generalizing args with
  | nil => simp
  | cons i ids ih =>
      cases args with
      | nil => simp at h
      | cons a args =>
          simp only [zipElems_cons, List.map_cons, List.cons.injEq, true_and]
          exact ih args (by simpa using h)

theorem zipElems_map_attrs (ids : List ℕ) (args : List (ℚ × String))
    (h : ids.length = args.length) :
    (zipElems ids args).map (fun e => (e.left, e.text)) = args := by
  induction ids generalizing args with
  | nil =>
      cases args with
      | nil => simp
      | cons a args => simp at h
  | cons i ids ih =>
      cases args with
      | nil => simp at h
      | cons a args =>
          simp only [zipElems_cons, List.map_cons, List.cons.injEq, true_and]
          exact ih args (by simpa using h)

theorem zipElems_self (l : List Elem) :
    zipElems (l.map Elem.id) (l.map fun e => (e.left, e.text)) = l := by
  induction l with
  | nil => rfl
  | cons e l ih => simp [zipElems_cons, ih]

theorem beginKind_mk (active : List Elem) (red : List ℕ) (next : ℕ)
    (live : Finset ℕ) :
    beginKind ⟨active, red, next, live⟩ = ⟨[], active.map Elem.id, next, live⟩ :=
  rfl

/-- Complete characterization of one pool cycle of a kind. -/
theorem cycleKind_spec (args : List (ℚ × String)) (k : KindState) :
    cycleKind args k =
      ⟨zipElems (poolIds (k.active.map Elem.id) k.nextId args.length) args,
       [],
       k.nextId + (args.length - k.active.length),
       (k.live ∪
          (List.range' k.nextId (args.length - k.active.length)).toFinset)
         \ ((k.active.map Elem.id).drop args.length).toFinset⟩ := by
  cases k with
  | mk active red next live =>
    simp only [cycleKind, beginKind_mk, foldAcquire_spec, endKind,
      List.nil_append, List.length_map]

theorem cycleKind_active_length (args : List (ℚ × String)) (k : KindState) :
    (cycleKind args k).active.length = args.length := by
  rw [cycleKind_spec]
  simp [zipElems_length, poolIds_length]

theorem cycleKind_attrs (args : List (ℚ × String)) (k : KindState) :
    (cycleKind args k).active.map (fun e => (e.left, e.text)) = args := by
  rw [cycleKind_spec]
  exact zipElems_map_attrs _ _ (poolIds_length _ _ _)

theorem cycleKind_redundant (args : List (ℚ × String)) (k : KindState) :
    (cycleKind args k).redundant = [] := by
  rw [cycleKind_spec]

/-- Re-running the same cycle on its own result changes nothing: every
retired element is reacquired in the same order with the same attributes,
nothing is created, nothing is destroyed. -/
theorem cycleKind_idem (args : List (ℚ × String)) (k : KindState) :
    cycleKind args (cycleKind args k) = cycleKind args k := by
  have h1 := cycleKind_active_length args k
  have h2 := cycleKind_attrs args k
  have h3 := cycleKind_redundant args k
  rw [cycleKind_spec args (cycleKind args k)]
  cases hk : cycleKind args k with
  | mk active red next live =>
    rw [hk] at h1 h2 h3
    simp only at h1 h2 h3
    subst h3
    have hlen : active.length = args.length := h1
    have hids : (active.map Elem.id).length = args.length := by
      simpa using hlen
    have hpool : poolIds (active.map Elem.id) next args.length
        = active.map Elem.id := by
      simp only [poolIds, hids, Nat.sub_self, List.range'_zero,
        List.append_nil]
      exact List.take_of_length_le (le_of_eq hids)
    have hdrop : (active.map Elem.id).drop args.length = [] :=
      List.drop_eq_nil_of_le (le_of_eq hids)
    simp only [hpool, hdrop, Nat.sub_self, hlen, List.range'_zero,
      List.toFinset_nil, Finset.union_empty, Finset.sdiff_empty,
      Nat.add_zero, KindState.mk.injEq, and_true, true_and]
    calc zipElems (active.map Elem.id) args
        = zipElems (active.map Elem.id) (active.map fun e => (e.left, e.text)) := by
          rw [h2]
      _ = active := zipElems_self active

/-! ### Decomposition of the `_repaintLabels` loop into per-kind pool runs -/

@[simp] theorem jsFirstDefined_none (b : Option ℚ) : jsFirstDefined none b = b :=
  rfl

@[simp] theorem jsFirstDefined_some (v : ℚ) (b : Option ℚ) :
    jsFirstDefined (some v) b = some v := rfl

theorem jsFirstDefined_none_right (a : Option ℚ) : jsFirstDefined a none = a := by
  cases a <;> rfl

theorem jsFirstDefined_absorb (a : Option ℚ) (x : ℚ) (b : Option ℚ) :
    jsFirstDefined (jsFirstDefined a (some x)) b = jsFirstDefined a (some x) := by
  cases a <;> rfl

/-- The tick loop, decomposed: each element kind's pool evolves by the run
of acquisitions listed by its placement sequence, and `xFirstMajorLabel`
ends as the first loop-placed major-label position. -/
theorem foldl_processTick (cfg : Config) (c : Conversion) (ts : List Tick)
    (dom : DomState) (xf : Option ℚ) :
    ts.foldl (processTick cfg c) ⟨dom, xf⟩ =
      ⟨⟨foldAcquire (majorLineArgs cfg c ts) dom.majorLines,
        foldAcquire (majorTextArgs cfg c ts) dom.majorTexts,
        foldAcquire (minorLineArgs cfg c ts) dom.minorLines,
        foldAcquire (minorTextArgs cfg c ts) dom.minorTexts⟩,
       jsFirstDefined xf (xFirstOf cfg c ts)⟩ := by
  induction ts generalizing dom xf with
  | nil =>
      simp [majorLineArgs, majorTextArgs, minorLineArgs, minorTextArgs,
        xFirstOf, jsFirstDefined_none_right]
  | cons t ts ih =>
      by_cases hs : cfg.showMinorLabels = true <;>
      by_cases hA : t.isMajor = true <;>
      by_cases hB : cfg.showMajorLabels = true <;>
      by_cases hx : 0 < toScreen c t.instant <;>
        simp [List.foldl_cons, processTick, hs, hA, hB, hx, majorLineArgs,
          majorTextArgs, minorLineArgs, minorTextArgs, xFirstOf, tickX,
          List.filterMap_cons, ih, jsFirstDefined_absorb]

theorem foldAcquire_snoc (L : List (ℚ × String)) (x : ℚ) (txt : String)
    (k : KindState) :
    foldAcquire (L ++ [(x, txt)]) k = acquire x txt (foldAcquire L k) := by
  rw [foldAcquire_append]; rfl

/-- `_repaintLabels`, fully characterized: each kind's pool undergoes one
cycle whose acquisition run is exactly the placement sequence the spec
describes (major labels followed, for the major-text kind, by the optional
leading-edge label), and the returned `xFirstMajorLabel` is the first
loop-placed major-label position. -/
theorem repaintLabels_eq (cfg : Config) (props : CharProps) (c : Conversion)
    (ticks : List Tick) (lblAt : ℤ → String) (dom0 : DomState) :
    repaintLabels cfg props c ticks lblAt dom0 =
      (⟨cycleKind (majorLineArgs cfg c (ticks.take 1000)) dom0.majorLines,
        cycleKind (majorTextArgs cfg c (ticks.take 1000) ++
            edgeArgs cfg props c (ticks.take 1000) lblAt) dom0.majorTexts,
        cycleKind (minorLineArgs cfg c (ticks.take 1000)) dom0.minorLines,
        cycleKind (minorTextArgs cfg c (ticks.take 1000)) dom0.minorTexts⟩,
       xFirstOf cfg c (ticks.take 1000)) := by
  unfold repaintLabels
  simp only [foldl_processTick, jsFirstDefined_none]
  by_cases hB : cfg.showMajorLabels = true
  · cases hxf : xFirstOf cfg c (ticks.take 1000) with
    | none =>
        simp [hB, hxf, edgeArgs, beginCycleDom, endCycleDom, cycleKind,
          foldAcquire_snoc]
    | some v =>
        by_cases hw : ((lblAt (toTime c 0)).length : ℚ) *
            jsOr props.majorCharWidth 10 + 10 < v
        · simp [hB, hxf, hw, edgeArgs, beginCycleDom, endCycleDom, cycleKind,
            foldAcquire_snoc]
        · simp [hB, hxf, hw, edgeArgs, beginCycleDom, endCycleDom, cycleKind,
            foldAcquire_snoc]
  · simp [hB, edgeArgs, beginCycleDom, endCycleDom, cycleKind]

/-! ### Pool conservation -/

/-- A full pool cycle preserves well-formedness, and afterwards the live
elements are exactly the elements acquired this cycle — one per placement. -/
theorem cycleKind_WF (args : List (ℚ × String)) (k : KindState)
    (h : WFKind k) :
    WFKind (cycleKind args k) ∧ (cycleKind args k).live.card = args.length := by
  obtain ⟨-, hnodup, hlt, hlive⟩ := h
  set ids := k.active.map Elem.id with hids
  set n := args.length with hn
  set m := ids.length with hm
  have hidlt : ∀ i ∈ ids, i < k.nextId := by
    intro i hi
    obtain ⟨e, he, rfl⟩ := List.mem_map.1 hi
    exact hlt e he
  have hpool : poolIds ids k.nextId n
      = ids.take n ++ List.range' k.nextId (n - m) := by
    rw [poolIds, List.take_append_eq_append_take]
    congr 1
    exact List.take_of_length_le (by rw [List.length_range'])
  have hPlen : (ids.take n ++ List.range' k.nextId (n - m)).length = n := by
    rw [← hpool]; exact poolIds_length _ _ _
  have htdn : (ids.take n).Disjoint (ids.drop n) := by
    have := hnodup
    rw [← List.take_append_drop n ids, List.nodup_append] at this
    exact this.2.2
  have htakelt : ∀ i ∈ ids.take n, i < k.nextId := fun i hi =>
    hidlt i (List.mem_of_mem_take hi)
  have hdroplt : ∀ i ∈ ids.drop n, i < k.nextId := fun i hi =>
    hidlt i (List.mem_of_mem_drop hi)
  have hrange : ∀ i ∈ List.range' k.nextId (n - m), k.nextId ≤ i := by
    intro i hi
    exact (List.mem_range'_1.1 hi).1
  have hPnodup : (ids.take n ++ List.range' k.nextId (n - m)).Nodup := by
    rw [List.nodup_append]
    refine ⟨hnodup.sublist (List.take_sublist n ids),
      List.nodup_range' _ _, ?_⟩
    intro i hi hi'
    exact absurd (hrange i hi') (by simpa using htakelt i hi)
  have hactive : (cycleKind args k).active
      = zipElems (ids.take n ++ List.range' k.nextId (n - m)) args := by
    rw [cycleKind_spec, ← hids, ← hn, hpool]
  have hactive_ids : (cycleKind args k).active.map Elem.id
      = ids.take n ++ List.range' k.nextId (n - m) := by
    rw [hactive]
    exact zipElems_map_id _ _ (by rw [hPlen])
  have hlive' : (cycleKind args k).live
      = (ids.take n ++ List.range' k.nextId (n - m)).toFinset := by
    rw [cycleKind_spec, ← hids, ← hn]
    have hm' : k.active.length = m := by rw [hm, hids, List.length_map]
    rw [hm', hlive]
    rw [show ids.toFinset = (ids.take n).toFinset ∪ (ids.drop n).toFinset by
      rw [← List.toFinset_append, List.take_append_drop]]
    rw [List.toFinset_append]
    ext x
    simp only [Finset.mem_sdiff, Finset.mem_union, List.mem_toFinset]
    constructor
    · rintro ⟨(⟨h1 | h1⟩ | h1), h2⟩
      · exact Or.inl h1
      · exact absurd h1 h2
      · exact Or.inr h1
    · rintro (h1 | h1)
      · exact ⟨Or.inl (Or.inl h1), fun h2 => htdn h1 h2⟩
      · refine ⟨Or.inr h1, fun h2 => ?_⟩
        exact absurd (hrange x h1) (by simpa using hdroplt x h2)
  refine ⟨⟨cycleKind_redundant _ _, ?_, ?_, ?_⟩, ?_⟩
  · rw [hactive_ids]; exact hPnodup
  · intro e he
    have : e.id ∈ ids.take n ++ List.range' k.nextId (n - m) := by
      rw [← hactive_ids]; exact List.mem_map_of_mem Elem.id he
    rw [cycleKind_spec, ← hids, ← hn]
    have hm' : k.active.length = m := by rw [hm, hids, List.length_map]
    rw [hm']
    show e.id < k.nextId + (n - m)
    rcases List.mem_append.1 this with h1 | h1
    · exact lt_of_lt_of_le (htakelt _ h1) (Nat.le_add_right _ _)
    · have := (List.mem_range'_1.1 h1).2
      omega
  · rw [hlive', hactive_ids]
  · rw [hlive', List.toFinset_card_of_nodup hPnodup, hPlen]

/-! ### Counting lemmas for the placement sequences -/

theorem filterMap_guard_length {α β : Type} (p : α → Bool) (f : α → β)
    (l : List α) :
    (l.filterMap fun a => if p a then some (f a) else none).length
      = (l.filter p).length := by
  induction l with
  | nil => rfl
  | cons a l ih =>
      by_cases h : p a = true <;>
        simp [List.filterMap_cons, List.filter_cons, h, ih]

theorem filter_length_partition {α : Type} (p : α → Bool) (l : List α) :
    (l.filter p).length + (l.filter fun a => !(p a)).length = l.length := by
  induction l with
  | nil => rfl
  | cons a l ih =>
      by_cases h : p a = true <;>
        simp [List.filter_cons, h, ← ih] <;> omega

theorem majorLineArgs_length (cfg : Config) (c : Conversion) (ts : List Tick) :
    (majorLineArgs cfg c ts).length
      = (ts.filter fun t => t.isMajor && cfg.showMajorLabels).length :=
  filterMap_guard_length _ _ ts

theorem minorLineArgs_length (cfg : Config) (c : Conversion) (ts : List Tick) :
    (minorLineArgs cfg c ts).length
      = (ts.filter fun t => !(t.isMajor && cfg.showMajorLabels)).length :=
  filterMap_guard_length _ _ ts

theorem majorTextArgs_length (cfg : Config) (c : Conversion) (ts : List Tick) :
    (majorTextArgs cfg c ts).length
      = (ts.filter fun t =>
          t.isMajor && cfg.showMajorLabels && decide (0 < tickX c t)).length :=
  filterMap_guard_length _ _ ts

theorem minorTextArgs_length (cfg : Config) (c : Conversion) (ts : List Tick) :
    (minorTextArgs cfg c ts).length
      = if cfg.showMinorLabels then ts.length else 0 := by
  by_cases h : cfg.showMinorLabels = true <;> simp [minorTextArgs, h]

theorem edgeArgs_length_le (cfg : Config) (props : CharProps) (c : Conversion)
    (ts : List Tick) (lblAt : ℤ → String) :
    (edgeArgs cfg props c ts lblAt).length ≤ 1 := by
  unfold edgeArgs
  cases hxf : xFirstOf cfg c ts <;>
    by_cases hB : cfg.showMajorLabels = true <;>
      simp only [hxf, hB, if_true, if_false, Bool.not_eq_true] <;>
        first
          | simp
          | (split_ifs <;> simp)

/-- Every major label placed during the loop sits at a strictly positive
pixel position. -/
theorem majorTextArgs_pos (cfg : Config) (c : Conversion) (ts : List Tick) :
    ∀ a ∈ majorTextArgs cfg c ts, 0 < a.1 := by
  intro a ha
  obtain ⟨t, -, ht⟩ := List.mem_filterMap.1 ha
  by_cases h : (t.isMajor && cfg.showMajorLabels && decide (0 < tickX c t)) = true
  · rw [if_pos h] at ht
    cases ht
    simp only [Bool.and_eq_true, decide_eq_true_eq] at h
    exact h.2
  · rw [if_neg h] at ht
    cases ht

/-! ### Idempotence helpers -/

theorem calculateCharSize_isSome (env : Host) (p : AxisProps) :
    (calculateCharSize env p).minorCharHeight.isSome = true ∧
    (calculateCharSize env p).majorCharHeight.isSome = true := by
  unfold calculateCharSize
  by_cases h1 : p.minorCharHeight.isSome = true <;>
    by_cases h2 : p.majorCharHeight.isSome = true <;>
      simp [h1, h2]

theorem calculateCharSize_idem (env : Host) (p : AxisProps) :
    calculateCharSize env (calculateCharSize env p) = calculateCharSize env p := by
  unfold calculateCharSize
  by_cases h1 : p.minorCharHeight.isSome = true <;>
    by_cases h2 : p.majorCharHeight.isSome = true <;>
      simp [h1, h2]

/-- Re-running `_repaintLabels` with identical inputs on its own output is
the identity on the output: every element is reacquired in order, none
created, none destroyed. -/
theorem repaintLabels_idem (cfg : Config) (props : CharProps) (c : Conversion)
    (ticks : List Tick) (lblAt : ℤ → String) (dom0 : DomState) :
    repaintLabels cfg props c ticks lblAt
        (repaintLabels cfg props c ticks lblAt dom0).1
      = repaintLabels cfg props c ticks lblAt dom0 := by
  rw [repaintLabels_eq cfg props c ticks lblAt dom0]
  rw [repaintLabels_eq]
  simp only [cycleKind_idem]

theorem repaintLine_stable (cfg : Config) (h : ℚ) (l l1 : Option LineElem)
    (hok : repaintLine cfg h l = .ok l1) :
    repaintLine cfg h l1 = .ok l1 := by
  unfold repaintLine at hok ⊢
  by_cases hb : (cfg.showMinorLabels || cfg.showMajorLabels) = true
  · rw [if_pos hb] at hok ⊢
    exact hok
  · rw [if_neg hb] at hok ⊢
    cases l with
    | some e => exact absurd hok (by simp)
    | none =>
        cases hok
        rfl

/-! ## Claim theorems -/

/-- Auxiliary: truncation toward zero moves a rational by less than one. -/
theorem jsTrunc_abs_lt_one (q : ℚ) : |(jsTrunc q : ℚ) - q| < 1 := by
  unfold jsTrunc
  split
  · rename_i h
    have h1 := Int.floor_le q
    have h2 := Int.sub_one_lt_floor q
    rw [abs_lt]
    constructor <;> linarith
  · rename_i h
    have h1 := Int.le_ceil q
    have h2 := Int.ceil_lt_add_one q
    rw [abs_lt]
    constructor <;> linarith

/-- Auxiliary: truncation is the identity on integers. -/
theorem jsTrunc_intCast (t : ℤ) : jsTrunc (t : ℚ) = t := by
  unfold jsTrunc
  split <;> simp

/-- **C9** (code bug, evaluated at the failing input): with both label
kinds hidden and an axis line present, `_repaintLine` throws the
`removeChild` `TypeError` (source line 423 passes `line.line`, which is
`undefined` since a DIV has no `line` property — evidently a slip for
`line`), instead of removing the line and completing without error as the
claim states; with at least one kind shown the line is (re)placed, and
with both hidden and no line present the call is a no-op. -/
theorem repaintLine_hiddenWithLine_throws :
    repaintLine ⟨false, false⟩ 20 (some ⟨20⟩)
      = .error (.typeError removeChildTypeErrMsg)
  ∧ repaintLine ⟨true, true⟩ 20 (some ⟨20⟩) = .ok (some ⟨20⟩)
  ∧ repaintLine ⟨false, false⟩ 20 none = .ok none :=
  ⟨rfl, rfl, rfl⟩

/-- **C10** (confirmed): on the freshly constructed component (before any
repaint), `this.conversion` is still `null`, and both `toTime` and
`toScreen` fail with the JS null-dereference `TypeError` — not with the
documented `ConfigurationError` (`Error('No range configured')`), which is
a different exception class. -/
theorem toTimeScreen_nullConversion_before_repaint :
    initAxisState.conversion = none
  ∧ (∀ x : ℚ, toTimeOn initAxisState x
      = .error (.typeError "Cannot read properties of null (reading scale)"))
  ∧ (∀ t : ℤ, toScreenOn initAxisState t
      = .error (.typeError "Cannot read properties of null (reading offset)"))
  ∧ (∀ msg : String, JsErr.typeError msg ≠ JsErr.error noRangeErrMsg) :=
  ⟨rfl, fun _ => rfl, fun _ => rfl, fun _ h => JsErr.noConfusion h⟩

/-- **C2** (amended): `setRange` raises `TypeError` exactly when the
argument is not a `Range` instance and is itself nullish or carries a falsy
or absent `start` or `end` (JS truthiness — so `start: 0` raises even
though the field is present); for a non-`Range` argument with truthy
`start` and `end` the range is stored; the spec's scenario
`setRange({start: "not-a-date"})` (no `end`) raises. -/
theorem setRange_guard_characterization :
    setRange none = .error (.typeError setRangeErrMsg)
  ∧ (∀ r : RangeArg,
      setRange (some r) = .error (.typeError setRangeErrMsg) ↔
        (r.isRangeInstance = false ∧
          (truthy r.start = false ∨ truthy r.endv = false)))
  ∧ (∀ r : RangeArg,
      setRange (some r) = .ok r ↔
        ¬(r.isRangeInstance = false ∧
          (truthy r.start = false ∨ truthy r.endv = false)))
  ∧ setRange (some ⟨false, .str "not-a-date", .undef⟩)
      = .error (.typeError setRangeErrMsg) := by
  refine ⟨rfl, ?_, ?_, rfl⟩ <;> intro r <;>
    by_cases h : (!r.isRangeInstance && (!(truthy r.start) || !(truthy r.endv)))
        = true <;>
      simp only [setRange, h, if_true, if_false] <;>
        simp only [Bool.and_eq_true, Bool.not_eq_true', Bool.or_eq_true] at h <;>
          simp [h]

/-- **C2**, counterexample to the claim as stated: the plain object
`{start: 0, end: 86400000}` exposes both `start` and `end`, yet `setRange`
raises `TypeError`, because `!range.start` is true for the falsy value `0`. -/
theorem setRange_counterexample :
    setRange (some ⟨false, .num 0, .num 86400000⟩)
      = .error (.typeError setRangeErrMsg)
  ∧ (JsVal.num 0) ≠ JsVal.undef ∧ (JsVal.num 86400000) ≠ JsVal.undef :=
  ⟨rfl, by decide, by decide⟩

/-- **C6** (amended): with a conversion of positive scale, the
pixel-to-time direction truncates to whole milliseconds (the `Date`
constructor), so `toScreen (toTime p)` differs from `p` by strictly less
than `scale` pixels (not necessarily by a mere floating-point tolerance);
the time-to-pixel-to-time direction is exact on (integer-millisecond)
instants. -/
theorem conversion_roundtrip (c : Conversion) (h : 0 < c.scale) (p : ℚ)
    (t : ℤ) :
    |toScreen c (toTime c p) - p| < c.scale
  ∧ toTime c (toScreen c t) = t := by
  have hne : c.scale ≠ 0 := ne_of_gt h
  constructor
  · have hp : toScreen c (toTime c p) - p
        = ((jsTrunc (p / c.scale + c.offset) : ℚ)
            - (p / c.scale + c.offset)) * c.scale := by
      unfold toScreen toTime
      field_simp
      ring
    rw [hp, abs_mul, abs_of_pos h]
    calc |(jsTrunc (p / c.scale + c.offset) : ℚ) - (p / c.scale + c.offset)|
          * c.scale
        < 1 * c.scale := by
          exact mul_lt_mul_of_pos_right (jsTrunc_abs_lt_one _) h
      _ = c.scale := one_mul _
  · unfold toTime toScreen
    rw [show ((t : ℚ) - c.offset) * c.scale / c.scale + c.offset = (t : ℚ) by
      field_simp]
    exact jsTrunc_intCast t

/-- **C6**, witness: at scale `1/2` the pixel round trip lands within
`scale` of the original pixel, and the instant round trip is exact. -/
theorem conversion_roundtrip_witness :
    |toScreen ⟨1/2, 0⟩ (toTime ⟨1/2, 0⟩ 3) - 3| < (1/2 : ℚ)
  ∧ toTime ⟨1/2, 0⟩ (toScreen ⟨1/2, 0⟩ 7) = 7 :=
  conversion_roundtrip ⟨1/2, 0⟩ (by norm_num) 3 7

/-- **C6**, counterexample to the claim as stated: with the positive-scale
conversion `{scale: 10, offset: 0}` (e.g. a 480-px frame over a 48 ms
range) and the in-range pixel `p = 5`, `toScreen (toTime 5)` is `0`, a full
5 pixels away from `p` — far beyond floating-point tolerance. -/
theorem conversion_roundtrip_counterexample :
    toScreen ⟨10, 0⟩ (toTime ⟨10, 0⟩ 5) = 0
  ∧ |toScreen ⟨10, 0⟩ (toTime ⟨10, 0⟩ 5) - 5| = 5
  ∧ (0 : ℚ) < 10 ∧ (0 : ℚ) ≤ 5 ∧ (5 : ℚ) < 480 := by
  have h : toTime ⟨10, 0⟩ 5 = 0 := by
    unfold toTime jsTrunc
    norm_num
  have h0 : toScreen ⟨10, 0⟩ (toTime ⟨10, 0⟩ 5) = 0 := by
    rw [h]
    unfold toScreen
    norm_num
  refine ⟨h0, ?_, by norm_num, by norm_num, by norm_num⟩
  rw [h0, show (0 : ℚ) - 5 = -(5 : ℚ) by ring, abs_neg,
    abs_of_nonneg (by norm_num : (0:ℚ) ≤ 5)]

/-- **C1** (amended): during a repaint, for every tick reported major by
the step generator *and with `showMajorLabels` enabled*, a major gridline
is placed centred on the tick's pixel position — with `showMajorLabels`
disabled a major tick falls into the minor-gridline branch instead — and a
major label is additionally placed there exactly when the pixel position is
`> 0`, with `xFirstMajorLabel` recording only the earliest such label
position (first-write-wins). Stated by equating each placement list with
its spec-side placement sequence over the capped ticks. -/
theorem majorTick_placement (cfg : Config) (props : CharProps)
    (c : Conversion) (ticks : List Tick) (lblAt : ℤ → String)
    (dom0 : DomState) :
    ((repaintLabels cfg props c ticks lblAt dom0).1.majorLines.active.map
        fun e => (e.left, e.text)) = majorLineArgs cfg c (cappedTicks ticks)
  ∧ ((repaintLabels cfg props c ticks lblAt dom0).1.minorLines.active.map
        fun e => (e.left, e.text)) = minorLineArgs cfg c (cappedTicks ticks)
  ∧ ((repaintLabels cfg props c ticks lblAt dom0).1.majorTexts.active.map
        fun e => (e.left, e.text))
      = majorTextArgs cfg c (cappedTicks ticks) ++
          edgeArgs cfg props c (cappedTicks ticks) lblAt
  ∧ (repaintLabels cfg props c ticks lblAt dom0).2
      = xFirstOf cfg c (cappedTicks ticks) := by
  unfold cappedTicks
  rw [repaintLabels_eq]
  exact ⟨cycleKind_attrs _ _, cycleKind_attrs _ _, cycleKind_attrs _ _, rfl⟩

/-- **C1**, counterexample to the claim as stated: with `showMajorLabels`
false, the single major tick at instant 5 yields *no* major gridline
(`majorLines` stays empty — the tick got a minor gridline at
`left = 5 − 1/2`), although the claim promises a major gridline regardless
of the flag. -/
theorem majorTick_counterexample :
    ((repaintLabels ⟨true, false⟩ ⟨none, none⟩ ⟨1, 0⟩ [⟨5, true, "m", "M"⟩]
        (fun _ => "E") emptyDom).1.majorLines.active = [])
  ∧ (Tick.mk 5 true "m" "M").isMajor = true
  ∧ (Config.mk true false).showMajorLabels = false
  ∧ ((repaintLabels ⟨true, false⟩ ⟨none, none⟩ ⟨1, 0⟩ [⟨5, true, "m", "M"⟩]
        (fun _ => "E") emptyDom).1.minorLines.active.map
          fun e => (e.left, e.text)) = [(9/2, "")] := by
  have htake : List.take 1000 [(⟨5, true, "m", "M"⟩ : Tick)]
      = [⟨5, true, "m", "M"⟩] := List.take_of_length_le (by norm_num)
  refine ⟨?_, rfl, rfl, ?_⟩
  · apply List.length_eq_zero.mp
    rw [repaintLabels_eq]
    show (cycleKind _ _).active.length = 0
    rw [cycleKind_active_length, htake]
    simp [majorLineArgs]
  · rw [repaintLabels_eq]
    show (cycleKind _ _).active.map _ = _
    rw [cycleKind_attrs, htake]
    simp only [minorLineArgs, List.filterMap_cons, List.filterMap_nil]
    norm_num [tickX, toScreen, lineWidth]

/-- **C3** (confirmed): pool conservation — starting from a well-formed
pool (as after any completed cycle, or the fresh component), a repaint
leaves a well-formed pool in which, for every element kind, the active
list, and the set of live (created and not destroyed) elements, have
exactly the size of that kind's emission count for this cycle; the
redundant sets are empty (so no element is referenced by both an active
and a redundant list), every retired element not reacquired having been
destroyed by the end-of-cycle cleanup. -/
theorem pool_conservation (cfg : Config) (props : CharProps) (c : Conversion)
    (ticks : List Tick) (lblAt : ℤ → String) (dom0 : DomState)
    (h : WFDom dom0) :
    WFDom (repaintLabels cfg props c ticks lblAt dom0).1
  ∧ (repaintLabels cfg props c ticks lblAt dom0).1.majorLines.active.length
      = emittedMajorLines cfg ticks
  ∧ (repaintLabels cfg props c ticks lblAt dom0).1.majorLines.live.card
      = emittedMajorLines cfg ticks
  ∧ (repaintLabels cfg props c ticks lblAt dom0).1.minorLines.active.length
      = emittedMinorLines cfg ticks
  ∧ (repaintLabels cfg props c ticks lblAt dom0).1.minorLines.live.card
      = emittedMinorLines cfg ticks
  ∧ (repaintLabels cfg props c ticks lblAt dom0).1.minorTexts.active.length
      = emittedMinorTexts cfg ticks
  ∧ (repaintLabels cfg props c ticks lblAt dom0).1.minorTexts.live.card
      = emittedMinorTexts cfg ticks
  ∧ (repaintLabels cfg props c ticks lblAt dom0).1.majorTexts.active.length
      = emittedMajorTexts cfg props c ticks lblAt
  ∧ (repaintLabels cfg props c ticks lblAt dom0).1.majorTexts.live.card
      = emittedMajorTexts cfg props c ticks lblAt := by
  obtain ⟨h1, h2, h3, h4⟩ := h
  rw [repaintLabels_eq]
  have e1 : (majorLineArgs cfg c (ticks.take 1000)).length
      = emittedMajorLines cfg ticks := by
    rw [majorLineArgs_length]; rfl
  have e2 : (minorLineArgs cfg c (ticks.take 1000)).length
      = emittedMinorLines cfg ticks := by
    rw [minorLineArgs_length]; rfl
  have e3 : (minorTextArgs cfg c (ticks.take 1000)).length
      = emittedMinorTexts cfg ticks := by
    rw [minorTextArgs_length]; rfl
  have e4 : (majorTextArgs cfg c (ticks.take 1000) ++
        edgeArgs cfg props c (ticks.take 1000) lblAt).length
      = emittedMajorTexts cfg props c ticks lblAt := by
    rw [List.length_append, majorTextArgs_length]; rfl
  refine ⟨⟨(cycleKind_WF _ _ h1).1, (cycleKind_WF _ _ h2).1,
    (cycleKind_WF _ _ h3).1, (cycleKind_WF _ _ h4).1⟩, ?_, ?_, ?_, ?_, ?_, ?_,
    ?_, ?_⟩
  · rw [cycleKind_active_length]; exact e1
  · rw [(cycleKind_WF _ _ h1).2]; exact e1
  · rw [cycleKind_active_length]; exact e2
  · rw [(cycleKind_WF _ _ h3).2]; exact e2
  · rw [cycleKind_active_length]; exact e3
  · rw [(cycleKind_WF _ _ h4).2]; exact e3
  · rw [cycleKind_active_length]; exact e4
  · rw [(cycleKind_WF _ _ h2).2]; exact e4

/-- The fresh component's pools are well-formed. -/
theorem WFDom_empty : WFDom emptyDom := by
  refine ⟨?_, ?_, ?_, ?_⟩ <;>
    exact ⟨rfl, List.nodup_nil, fun e he => absurd he (List.not_mem_nil e),
      by simp [emptyDom]⟩

/-- **C3**, witness: one cycle over a single minor tick from the fresh
component, with both label kinds shown. -/
theorem pool_conservation_witness :
    WFDom (repaintLabels sampleCfg ⟨none, none⟩ ⟨1, 0⟩ [minorTick0]
      (fun _ => "E") emptyDom).1
  ∧ (repaintLabels sampleCfg ⟨none, none⟩ ⟨1, 0⟩ [minorTick0]
      (fun _ => "E") emptyDom).1.majorLines.active.length
      = emittedMajorLines sampleCfg [minorTick0]
  ∧ (repaintLabels sampleCfg ⟨none, none⟩ ⟨1, 0⟩ [minorTick0]
      (fun _ => "E") emptyDom).1.majorLines.live.card
      = emittedMajorLines sampleCfg [minorTick0]
  ∧ (repaintLabels sampleCfg ⟨none, none⟩ ⟨1, 0⟩ [minorTick0]
      (fun _ => "E") emptyDom).1.minorLines.active.length
      = emittedMinorLines sampleCfg [minorTick0]
  ∧ (repaintLabels sampleCfg ⟨none, none⟩ ⟨1, 0⟩ [minorTick0]
      (fun _ => "E") emptyDom).1.minorLines.live.card
      = emittedMinorLines sampleCfg [minorTick0]
  ∧ (repaintLabels sampleCfg ⟨none, none⟩ ⟨1, 0⟩ [minorTick0]
      (fun _ => "E") emptyDom).1.minorTexts.active.length
      = emittedMinorTexts sampleCfg [minorTick0]
  ∧ (repaintLabels sampleCfg ⟨none, none⟩ ⟨1, 0⟩ [minorTick0]
      (fun _ => "E") emptyDom).1.minorTexts.live.card
      = emittedMinorTexts sampleCfg [minorTick0]
  ∧ (repaintLabels sampleCfg ⟨none, none⟩ ⟨1, 0⟩ [minorTick0]
      (fun _ => "E") emptyDom).1.majorTexts.active.length
      = emittedMajorTexts sampleCfg ⟨none, none⟩ ⟨1, 0⟩ [minorTick0]
          (fun _ => "E")
  ∧ (repaintLabels sampleCfg ⟨none, none⟩ ⟨1, 0⟩ [minorTick0]
      (fun _ => "E") emptyDom).1.majorTexts.live.card
      = emittedMajorTexts sampleCfg ⟨none, none⟩ ⟨1, 0⟩ [minorTick0]
          (fun _ => "E") :=
  pool_conservation sampleCfg ⟨none, none⟩ ⟨1, 0⟩ [minorTick0]
    (fun _ => "E") emptyDom WFDom_empty

/-- Auxiliary: an element with given position and text is in a list iff the
pair is in the list's attribute projection. -/
theorem exists_attr_iff_mem_map (L : List Elem) (x : ℚ) (s : String) :
    (∃ e ∈ L, e.left = x ∧ e.text = s)
      ↔ (x, s) ∈ L.map fun e => (e.left, e.text) := by
  rw [List.mem_map]
  constructor
  · rintro ⟨e, he, h1, h2⟩
    exact ⟨e, he, by rw [h1, h2]⟩
  · rintro ⟨e, he, h⟩
    obtain ⟨h1, h2⟩ := Prod.mk.injEq .. ▸ h
    exact ⟨e, he, h1, h2⟩

/-- **C4** (confirmed): after the tick loop, when `showMajorLabels` is
true, a major label carrying the step generator's major-label text for
`toTime(0)` sits at pixel 0 if and only if either no in-range major label
was placed during the loop (`xFirstMajorLabel` undefined) or the estimated
edge-label width — text length times the major glyph width (`10` when the
measurement is absent or `0`) plus `10` px — is strictly smaller than
`xFirstMajorLabel`. -/
theorem leadingEdge_iff (cfg : Config) (props : CharProps) (c : Conversion)
    (ticks : List Tick) (lblAt : ℤ → String) (dom0 : DomState)
    (h : cfg.showMajorLabels = true) :
    (∃ e ∈ (repaintLabels cfg props c ticks lblAt dom0).1.majorTexts.active,
        e.left = 0 ∧ e.text = lblAt (toTime c 0))
      ↔ (xFirstOf cfg c (cappedTicks ticks) = none
          ∨ ∃ v, xFirstOf cfg c (cappedTicks ticks) = some v
              ∧ ((lblAt (toTime c 0)).length : ℚ) *
                  jsOr props.majorCharWidth 10 + 10 < v) := by
  unfold cappedTicks
  rw [exists_attr_iff_mem_map, repaintLabels_eq]
  show (0, lblAt (toTime c 0)) ∈ (cycleKind _ _).active.map _ ↔ _
  rw [cycleKind_attrs, List.mem_append]
  have hnotloop : (0, lblAt (toTime c 0))
      ∉ majorTextArgs cfg c (ticks.take 1000) := by
    intro hmem
    have := majorTextArgs_pos cfg c (ticks.take 1000) _ hmem
    exact absurd this (by norm_num)
  constructor
  · rintro (hmem | hmem)
    · exact absurd hmem hnotloop
    · unfold edgeArgs at hmem
      rw [if_pos h] at hmem
      cases hxf : xFirstOf cfg c (ticks.take 1000) with
      | none => exact Or.inl rfl
      | some v =>
          rw [hxf] at hmem
          simp only at hmem
          split at hmem
          · exact Or.inr ⟨v, rfl, by assumption⟩
          · exact absurd hmem (List.not_mem_nil _)
  · intro hcond
    refine Or.inr ?_
    unfold edgeArgs
    rw [if_pos h]
    cases hxf : xFirstOf cfg c (ticks.take 1000) with
    | none => exact List.mem_singleton.mpr rfl
    | some v =>
        rcases hcond with h1 | ⟨v', hv', hw⟩
        · exact absurd (hxf ▸ h1) (by simp)
        · have : v' = v := by
            rw [hxf] at hv'
            exact (Option.some.injEq .. ▸ hv').symm
          subst this
          simp only
          rw [if_pos hw]
          exact List.mem_singleton.mpr rfl

/-- **C4**, witness: with no ticks at all, no in-range major label exists,
so the edge label is placed at pixel 0. -/
theorem leadingEdge_iff_witness :
    (∃ e ∈ (repaintLabels ⟨true, true⟩ ⟨none, none⟩ ⟨1, 0⟩ []
        (fun _ => "E") emptyDom).1.majorTexts.active,
        e.left = 0 ∧ e.text = "E")
      ↔ (xFirstOf ⟨true, true⟩ ⟨1, 0⟩ (cappedTicks []) = none
          ∨ ∃ v, xFirstOf ⟨true, true⟩ ⟨1, 0⟩ (cappedTicks []) = some v
              ∧ (("E".length : ℚ) *
                  jsOr (CharProps.mk none none).majorCharWidth 10 + 10 < v)) :=
  leadingEdge_iff ⟨true, true⟩ ⟨none, none⟩ ⟨1, 0⟩ [] (fun _ => "E")
    emptyDom rfl

/-- **C5** (amended): the per-repaint tick loop processes at most 1000
ticks — the repaint's outcome depends only on the first 1000 ticks, the
truncation being silent; when the generator yields at least 1000 ticks,
exactly 1000 gridlines are placed (split between the major and minor
kinds), exactly 1000 minor labels when `showMinorLabels` (0 otherwise),
and at most 1001 major labels (at most one per processed tick plus the
optional leading-edge label) — bounded, not proportional to the
generator's output. -/
theorem tick_cap (cfg : Config) (props : CharProps) (c : Conversion)
    (ticks : List Tick) (lblAt : ℤ → String) (dom0 : DomState)
    (h : 1000 ≤ ticks.length) :
    repaintLabels cfg props c ticks lblAt dom0
      = repaintLabels cfg props c (cappedTicks ticks) lblAt dom0
  ∧ (repaintLabels cfg props c ticks lblAt dom0).1.minorLines.active.length
      + (repaintLabels cfg props c ticks lblAt dom0).1.majorLines.active.length
      = 1000
  ∧ (repaintLabels cfg props c ticks lblAt dom0).1.minorTexts.active.length
      = (if cfg.showMinorLabels then 1000 else 0)
  ∧ (repaintLabels cfg props c ticks lblAt dom0).1.majorTexts.active.length
      ≤ 1001 := by
  have hlen : (ticks.take 1000).length = 1000 := by
    rw [List.length_take]; omega
  refine ⟨?_, ?_, ?_, ?_⟩
  · unfold cappedTicks
    rw [repaintLabels_eq, repaintLabels_eq, List.take_take]
    norm_num
  · rw [repaintLabels_eq]
    show (cycleKind _ _).active.length + (cycleKind _ _).active.length = 1000
    rw [cycleKind_active_length, cycleKind_active_length,
      minorLineArgs_length, majorLineArgs_length, Nat.add_comm,
      filter_length_partition, hlen]
  · rw [repaintLabels_eq]
    show (cycleKind _ _).active.length = _
    rw [cycleKind_active_length, minorTextArgs_length, hlen]
  · rw [repaintLabels_eq]
    show (cycleKind _ _).active.length ≤ 1001
    rw [cycleKind_active_length, List.length_append, majorTextArgs_length]
    have hf := List.length_filter_le
      (fun t => t.isMajor && cfg.showMajorLabels && decide (0 < tickX c t))
      (ticks.take 1000)
    have he := edgeArgs_length_le cfg props c (ticks.take 1000) lblAt
    omega

/-- **C5**, witness: exactly 1000 minor ticks, both label kinds shown. -/
theorem tick_cap_witness :
    repaintLabels sampleCfg ⟨none, none⟩ ⟨1, 0⟩
        (List.replicate 1000 minorTick0) (fun _ => "E") emptyDom
      = repaintLabels sampleCfg ⟨none, none⟩ ⟨1, 0⟩
          (cappedTicks (List.replicate 1000 minorTick0)) (fun _ => "E")
          emptyDom
  ∧ (repaintLabels sampleCfg ⟨none, none⟩ ⟨1, 0⟩ (List.replicate 1000 minorTick0)
        (fun _ => "E") emptyDom).1.minorLines.active.length
      + (repaintLabels sampleCfg ⟨none, none⟩ ⟨1, 0⟩ (List.replicate 1000 minorTick0)
          (fun _ => "E") emptyDom).1.majorLines.active.length = 1000
  ∧ (repaintLabels sampleCfg ⟨none, none⟩ ⟨1, 0⟩ (List.replicate 1000 minorTick0)
        (fun _ => "E") emptyDom).1.minorTexts.active.length
      = (if sampleCfg.showMinorLabels then 1000 else 0)
  ∧ (repaintLabels sampleCfg ⟨none, none⟩ ⟨1, 0⟩ (List.replicate 1000 minorTick0)
        (fun _ => "E") emptyDom).1.majorTexts.active.length ≤ 1001 :=
  tick_cap sampleCfg ⟨none, none⟩ ⟨1, 0⟩ (List.replicate 1000 minorTick0)
    (fun _ => "E") emptyDom (by rw [List.length_replicate])

/-- **C5**, counterexample to the claim as stated: 1001 minor ticks with
both label kinds enabled rendered *zero* major gridlines — not "exactly
1000 rendered elements per enabled kind". -/
theorem tick_cap_counterexample :
    ((repaintLabels sampleCfg ⟨none, none⟩ ⟨1, 0⟩ (List.replicate 1001 minorTick0)
        (fun _ => "E") emptyDom).1.majorLines.active.length = 0)
  ∧ sampleCfg.showMajorLabels = true
  ∧ (List.replicate 1001 minorTick0).length = 1001 := by
  refine ⟨?_, rfl, by rw [List.length_replicate]⟩
  rw [repaintLabels_eq]
  show (cycleKind _ _).active.length = 0
  rw [cycleKind_active_length, majorLineArgs_length, List.take_replicate,
    List.filter_replicate]
  norm_num [minorTick0]

/-- **C8** (amended): when repaint is attempted with no range configured
(under a parent with a container), it raises `Error('No range configured')`
— but only *after* mutating visual state: the frame has been created (when
absent), the glyph sizes have been measured and cached, the size props and
frame style updated, and the frame detached for the offline update; it is
left detached when the error propagates. The element pools, the conversion,
the axis line and the stored range are untouched at that point. -/
theorem repaint_noRange_mutates (env : Host) (cfg : Config) (s : AxisState)
    (h1 : s.range = none) (h2 : env.parentExists = true)
    (h3 : env.parentContainerExists = true) :
    (repaint env cfg s).1 = some (.error noRangeErrMsg)
  ∧ (repaint env cfg s).2.frameExists = true
  ∧ (repaint env cfg s).2.frameInParent = false
  ∧ (repaint env cfg s).2.props.minorCharHeight.isSome = true
  ∧ (repaint env cfg s).2.props.majorCharHeight.isSome = true
  ∧ (repaint env cfg s).2.frameStyled.isSome = true
  ∧ (repaint env cfg s).2.width = env.offsetWidth
  ∧ (repaint env cfg s).2.dom = s.dom
  ∧ (repaint env cfg s).2.conversion = s.conversion
  ∧ (repaint env cfg s).2.line = s.line
  ∧ (repaint env cfg s).2.range = none := by
  unfold repaint
  by_cases hf : s.frameExists = true <;>
    simp [hf, h1, h2, h3, (calculateCharSize_isSome env s.props).1,
      (calculateCharSize_isSome env s.props).2]

/-- **C8**, witness: the fresh component under the sample host. -/
theorem repaint_noRange_mutates_witness :
    (repaint sampleHost sampleCfg initAxisState).1
      = some (.error noRangeErrMsg)
  ∧ (repaint sampleHost sampleCfg initAxisState).2.frameExists = true
  ∧ (repaint sampleHost sampleCfg initAxisState).2.frameInParent = false
  ∧ (repaint sampleHost sampleCfg initAxisState).2.props.minorCharHeight.isSome
      = true
  ∧ (repaint sampleHost sampleCfg initAxisState).2.props.majorCharHeight.isSome
      = true
  ∧ (repaint sampleHost sampleCfg initAxisState).2.frameStyled.isSome = true
  ∧ (repaint sampleHost sampleCfg initAxisState).2.width
      = sampleHost.offsetWidth
  ∧ (repaint sampleHost sampleCfg initAxisState).2.dom = initAxisState.dom
  ∧ (repaint sampleHost sampleCfg initAxisState).2.conversion
      = initAxisState.conversion
  ∧ (repaint sampleHost sampleCfg initAxisState).2.line = initAxisState.line
  ∧ (repaint sampleHost sampleCfg initAxisState).2.range = none :=
  repaint_noRange_mutates sampleHost sampleCfg initAxisState rfl rfl rfl

/-- **C8**, counterexample to the claim as stated: the raise is real, but
the resulting state is *not* the initial state — the frame now exists (and
is left detached), so visual state was mutated before the error. -/
theorem repaint_noRange_counterexample :
    (repaint sampleHost sampleCfg initAxisState).1
      = some (.error noRangeErrMsg)
  ∧ (repaint sampleHost sampleCfg initAxisState).2 ≠ initAxisState := by
  constructor
  · rfl
  · intro hEq
    have hproj : (repaint sampleHost sampleCfg initAxisState).2.frameExists
        = initAxisState.frameExists := by rw [hEq]
    have hL : (repaint sampleHost sampleCfg initAxisState).2.frameExists
        = true := rfl
    rw [hL] at hproj
    exact absurd hproj (by decide)

/-- Auxiliary: `_calculateCharSize` does nothing once both measurements
are cached. -/
theorem calculateCharSize_of_isSome (env : Host) (p : AxisProps)
    (h1 : p.minorCharHeight.isSome = true)
    (h2 : p.majorCharHeight.isSome = true) :
    calculateCharSize env p = p := by
  unfold calculateCharSize
  rw [if_pos h1, if_pos h2]

/-- Auxiliary: first component of `repaintLabels` rerun on its own output. -/
theorem repaintLabels_fst_idem (cfg : Config) (props : CharProps)
    (c : Conversion) (ticks : List Tick) (lblAt : ℤ → String)
    (dom0 : DomState) :
    (repaintLabels cfg props c ticks lblAt
        (repaintLabels cfg props c ticks lblAt dom0).1).1
      = (repaintLabels cfg props c ticks lblAt dom0).1 := by
  rw [repaintLabels_idem]

/-- **C7** (confirmed): a second repaint with the same host inputs, option
flags and (unchanged) stored range reproduces the first repaint's state
exactly — the same element positions, texts and identities, the same live
sets (nothing created, nothing destroyed), the same line, conversion and
sizes. -/
theorem repaint_idempotent (env : Host) (cfg : Config) (s s1 : AxisState)
    (h : repaint env cfg s = (none, s1)) :
    repaint env cfg s1 = (none, s1) := by
  unfold repaint at h
  cases hr : s.range with
  | none =>
      by_cases hf : s.frameExists = true <;>
        by_cases hp : s.frameInParent = true <;>
          by_cases he1 : env.parentExists = true <;>
            by_cases he2 : env.parentContainerExists = true <;>
              simp [hf, hp, he1, he2, hr] at h
  | some r =>
      by_cases hf : s.frameExists = true <;>
        by_cases hp : s.frameInParent = true <;>
          by_cases he1 : env.parentExists = true <;>
            by_cases he2 : env.parentContainerExists = true <;>
              simp [hf, hp, he1, he2, hr] at h <;>
              · split at h
                next e heq => simp at h
                next line1 heq =>
                  rw [Prod.mk.injEq] at h
                  obtain ⟨-, hs1⟩ := h
                  subst hs1
                  unfold repaint
                  simp [hr, heq, calculateCharSize_isSome,
                    calculateCharSize_of_isSome, repaintLabels_fst_idem,
                    repaintLine_stable _ _ _ _ heq]

/-- **C7**, witness: two consecutive repaints of the sample axis starting
from the fresh state with a configured one-day range — the second repaint
returns the first repaint's state unchanged. -/
theorem repaint_idempotent_witness :
    repaint sampleHost sampleCfg
        (repaint sampleHost sampleCfg
          { initAxisState with range := some sampleRange }).2
      = (none, (repaint sampleHost sampleCfg
          { initAxisState with range := some sampleRange }).2) :=
  repaint_idempotent sampleHost sampleCfg
    { initAxisState with range := some sampleRange }
    (repaint sampleHost sampleCfg
      { initAxisState with range := some sampleRange }).2 (by rfl)

end TimeAxis
